import Mathlib

/-!
# Waterfalls daily word puzzle: a shallow embedding of the core engine

This file embeds, in Lean, the data model and state-transition functions of
the Waterfalls puzzle app (a Svelte application):

* `src/lib/state.svelte.ts` — the play state, `loadPuzzle`, `isSolved`,
  `submitAnswers`, `isCellLocked`;
* `src/components/MainView.svelte` — `setEntry`, `revealLetter`,
  `resetPuzzle`, `getDisplayValue`, `isCellUsed`, `getTileScore`,
  `getTotalScore`, and `makeDemoPuzzle`;
* the editor components (`EditorView`) — `getUsedBounds`, `autoTrim`,
  `trimGrid`, `isTileUsed`, `deriveArrows`, and the two `buildPuzzle`
  variants.

JavaScript strings are modelled as `List Char`; `String.prototype.toLowerCase`
becomes `List.map Char.toLower`, `slice(a)` becomes `List.drop a`,
`slice(0, n)` becomes `List.take n`.  JavaScript records with possibly-missing
string values (`entries`, `reveals`) are modelled as total functions
`Nat → List Char` defaulting to the empty string, since every read in the
embedded code goes through `?? ''` (writing `undefined` is writing `''`).
`Record<number, string>` objects with a fixed key set (`solutions`,
`tileCompletions`) are modelled as association lists / optional functions.
Sets of cell indices (`lockedCells`, `incorrectCells`) are `Finset Nat`.
-/

namespace Waterfalls

/-- JavaScript string, as a list of characters. -/
abbrev JStr := List Char

/-- Convert a Lean string literal to the `List Char` model. -/
def js (s : String) : JStr := s.toList

/-- JavaScript truthiness of an optional string: `undefined` and `''` are falsy. -/
def strTruthy : Option JStr → Bool
  | none => false
  | some s => !s.isEmpty

/-- Arrow direction (`types/puzzle.d.ts`). -/
inductive Direction where
  | right
  | down
deriving DecidableEq, Repr

/-- An arrow between two cells, by row-major index (`types/puzzle.d.ts`).
The TS fields are `from` and `to`; `from` is a Lean keyword so the fields
are spelled `from_` and `to_`. -/
structure Arrow where
  from_ : Nat
  to_ : Nat
  dir : Direction
deriving DecidableEq, Repr

/-- A grid cell (`types/puzzle.d.ts`): optional prefilled word and hint. -/
structure Cell where
  fixed : Option JStr := none
  hint : Option JStr := none
deriving DecidableEq, Repr

/-- JavaScript truthiness of `cell.fixed`. -/
def Cell.fixedTruthy (c : Cell) : Bool := strTruthy c.fixed

/-- The grid (`types/puzzle.d.ts`). -/
structure Grid where
  rows : Nat
  cols : Nat
  cells : List Cell
  arrows : List Arrow
deriving DecidableEq, Repr

/-- A puzzle (`types/puzzle.d.ts`).  `solutions` is a string-keyed record in
TS; it is modelled as an association list in key order. -/
structure Puzzle where
  id : JStr
  date : JStr
  title : Option JStr := none
  author : Option JStr := none
  grid : Grid
  solutions : List (Nat × JStr)
deriving DecidableEq, Repr

/-- The per-session play state (`GameState` in `state.svelte.ts`, including
the `attempts` counter).  `entries` and `reveals` default to the empty
string, matching the `?? ''` reads in the source. -/
structure GameState where
  entries : Nat → JStr
  reveals : Nat → JStr
  focusedCell : Option Nat
  lockedCells : Finset Nat
  incorrectCells : Finset Nat
  attempts : Nat

/-- `firstEmptyCell` (`state.svelte.ts`): index of the first cell whose
`fixed` is falsy, or `none`. -/
def firstEmptyCell (grid : Grid) : Option Nat :=
  grid.cells.findIdx? (fun c => !c.fixedTruthy)

/-- The play state built by `loadPuzzle` (`state.svelte.ts`):
empty maps and sets, `focusedCell = firstEmptyCell(grid) ?? 0`, zero attempts. -/
def loadPuzzleState (puzzle : Puzzle) : GameState where
  entries := fun _ => []
  reveals := fun _ => []
  focusedCell := some ((firstEmptyCell puzzle.grid).getD 0)
  lockedCells := ∅
  incorrectCells := ∅
  attempts := 0

/-- `isSolved` (`state.svelte.ts`): every solution key is locked. -/
def isSolved (sols : List (Nat × JStr)) (st : GameState) : Bool :=
  sols.all (fun e => decide (e.1 ∈ st.lockedCells))

/-- One iteration of the `submitAnswers` loop (`state.svelte.ts`, lines
106–124), carrying the running state and the `allCorrect` flag. -/
def submitStep (acc : GameState × Bool) (e : Nat × JStr) : GameState × Bool :=
  let st := acc.1
  let idx := e.1
  let correctWord := e.2
  let revealed := st.reveals idx
  let userInput := st.entries idx
  let fullEntry := revealed ++ userInput
  if fullEntry = correctWord then
    ({ st with lockedCells := insert idx st.lockedCells,
               incorrectCells := st.incorrectCells.erase idx }, acc.2)
  else if userInput ≠ [] then
    ({ st with entries := fun j => if j = idx then [] else st.entries j,
               incorrectCells := insert idx st.incorrectCells }, false)
  else acc

/-- `submitAnswers` (`state.svelte.ts`): bump `attempts`, fold the check over
all solution entries, and return the final state with the `allCorrect`
boolean that the function returns. -/
def submitAnswers (sols : List (Nat × JStr)) (st : GameState) : GameState × Bool :=
  sols.foldl submitStep ({ st with attempts := st.attempts + 1 }, true)

/-- `getDisplayValue` (`MainView.svelte`): revealed letters ++ user input. -/
def getDisplayValue (st : GameState) (index : Nat) : JStr :=
  st.reveals index ++ st.entries index

/-- `setEntry` (`MainView.svelte`, lines 101–123). -/
def setEntry (st : GameState) (index : Nat) (value : JStr) : GameState :=
  if index ∈ st.lockedCells then st
  else
    let lowercaseValue := value.map Char.toLower
    let revealedLength := (st.reveals index).length
    if lowercaseValue.length < revealedLength then st
    else
      { st with
        entries := fun j => if j = index then lowercaseValue.drop revealedLength
                            else st.entries j,
        incorrectCells := st.incorrectCells.erase index }

/-- `revealLetter` (`MainView.svelte`, lines 249–269).  Out-of-range focus
would crash in JS (`cell.fixed` on `undefined`); the spec calls this a
programming error that a well-formed puzzle never triggers, and it is
modelled as a no-op; claims always hypothesise an in-range cell. -/
def revealLetter (p : Puzzle) (st : GameState) : GameState :=
  match st.focusedCell with
  | none => st
  | some i =>
    match p.grid.cells[i]? with
    | none => st
    | some cell =>
      if cell.fixedTruthy then st
      else
        match p.solutions.lookup i with
        | none => st
        | some solution =>
          if solution.isEmpty then st
          else
            let currentRevealed := st.reveals i
            let nextLen := min (currentRevealed.length + 1) solution.length
            let nextRevealed := (solution.take nextLen).map Char.toLower
            { st with
              entries := fun j => if j = i then [] else st.entries j,
              reveals := fun j => if j = i then nextRevealed else st.reveals j,
              incorrectCells := st.incorrectCells.erase i }

/-- `resetPuzzle` (`MainView.svelte`, lines 319–331), restricted to the
`game.state` fields it touches: it clears entries, reveals, both cell sets,
sets `focusedCell` to `null`, and does not touch `game.state.attempts`. -/
def resetPuzzle (st : GameState) : GameState :=
  { st with
    entries := fun _ => []
    reveals := fun _ => []
    focusedCell := none
    lockedCells := ∅
    incorrectCells := ∅ }

/-- `isCellUsed` (`MainView.svelte`, lines 404–418): fixed content, a truthy
solution, or an arrow endpoint (either side). -/
def isCellUsed (p : Puzzle) (index : Nat) : Bool :=
  match p.grid.cells[index]? with
  | none => false
  | some cell =>
    if cell.fixedTruthy then true
    else if strTruthy (p.solutions.lookup index) then true
    else
      (p.grid.arrows.any (fun a => a.from_ == index)) ||
      (p.grid.arrows.any (fun a => a.to_ == index))

/-- `makeDemoPuzzle` (`MainView.svelte`): the built-in 2×2 demo puzzle. -/
def makeDemoPuzzle : Puzzle where
  id := js ("demo")
  date := js ("2025-01-01")
  title := some (js ("Getting started"))
  author := some (js ("demo"))
  grid :=
    { rows := 2
      cols := 2
      cells := [{ fixed := some (js ("rain")) }, {}, {}, { fixed := some (js ("brain")) }]
      arrows := [⟨0, 1, .right⟩, ⟨0, 2, .down⟩, ⟨2, 3, .right⟩] }
  solutions := [(1, js ("bow")), (2, js ("storm"))]

/-! ## Scoring (`MainView.svelte`) -/

/-- One entry of `tileCompletions` (`MainView.svelte`): elapsed seconds and
the submit counter at the moment a tile locked. -/
structure Completion where
  time : Nat
  submits : Nat
deriving DecidableEq, Repr

/-- `getTileScore` (`MainView.svelte`, lines 485–489): `time * submits`,
`0` for a cell with no completion record. -/
def getTileScore (tc : Nat → Option Completion) (cellIndex : Nat) : Nat :=
  match tc cellIndex with
  | none => 0
  | some completion => completion.time * completion.submits

/-- `getTotalScore` (`MainView.svelte`, lines 492–504): loop over all grid
cells, adding the tile score of every used, non-fixed cell. -/
def getTotalScore (p : Puzzle) (tc : Nat → Option Completion) : Nat :=
  (List.range p.grid.cells.length).foldl
    (fun totalScore i =>
      match p.grid.cells[i]? with
      | none => totalScore
      | some cell =>
        if !cell.fixedTruthy && isCellUsed p i then totalScore + getTileScore tc i
        else totalScore)
    0

/-- The score contribution of one cell: its tile score when the cell is
used and not fixed, and `0` otherwise. -/
def perCellScore (p : Puzzle) (tc : Nat → Option Completion) (i : Nat) : Nat :=
  match p.grid.cells[i]? with
  | none => 0
  | some cell =>
    if !cell.fixedTruthy && isCellUsed p i then getTileScore tc i else 0

/-- Modelled from the spec: "Total score = sum of per-cell scores over all
used, non-fixed cells" (§4.4), as a sum over the cell indices of the grid. -/
def specTotalScore (p : Puzzle) (tc : Nat → Option Completion) : Nat :=
  ((List.range p.grid.cells.length).map (perCellScore p tc)).sum

/-! ## Grid authoring (editor components) -/

/-- An editor cell: its word (if any), the fixed flag, and the two
arrow flags (`EditCell` in the editor components). -/
structure EditCell where
  fixed : Option JStr := none
  isFixed : Bool := false
  right : Bool := false
  down : Bool := false
deriving DecidableEq, Repr

/-- JavaScript truthiness of `cell.fixed` for editor cells. -/
def EditCell.fixedTruthy (c : EditCell) : Bool := strTruthy c.fixed

/-- The default editor cell `{ isFixed: false, right: false, down: false }`. -/
def defaultEditCell : EditCell := {}

/-- `deriveArrows` (both editor components) and `deriveArrowsForTrimmed`
(trim-capable editor) share this body: a RIGHT arrow for every right-flagged
cell not in the last column, a DOWN arrow for every down-flagged cell not in
the last row, in cell-index order. -/
def deriveArrows (rows cols : Nat) (cells : List EditCell) : List Arrow :=
  cells.enum.flatMap (fun ic =>
    let i := ic.1
    let r := i / cols
    let c := i % cols
    let cell := ic.2
    (if cell.right && decide (c < cols - 1) then [Arrow.mk i (i + 1) .right] else []) ++
    (if cell.down && decide (r < rows - 1) then [Arrow.mk i (i + cols) .down] else []))

/-- `isTileUsed` (trim-capable editor, lines 127–151): a tile is used if it
is fixed, has a word, carries an arrow flag, or is pointed at by another
tile's right/down flag.  The `thisCol - 1` / `thisRow - 1` arithmetic is
over JS numbers, modelled with `Int`. -/
def isTileUsed (rows cols : Nat) (cells : List EditCell) (index : Nat) : Bool :=
  match cells[index]? with
  | none => false
  | some cell =>
    if cell.isFixed || cell.fixedTruthy then true
    else if cell.right || cell.down then true
    else
      cells.enum.any (fun ic =>
        let i := ic.1
        let otherCell := ic.2
        let otherRow : Int := (i / cols : Nat)
        let otherCol : Int := (i % cols : Nat)
        let thisRow : Int := (index / cols : Nat)
        let thisCol : Int := (index % cols : Nat)
        (otherCell.right && otherRow == thisRow && otherCol == thisCol - 1) ||
        (otherCell.down && otherCol == thisCol && otherRow == thisRow - 1))

/-- The min/max row/column record returned by `getUsedBounds`.  The TS code
uses sentinel values `rows`/`-1` before clamping, so the fields are `Int`. -/
structure UsedBounds where
  minRow : Int
  maxRow : Int
  minCol : Int
  maxCol : Int
deriving DecidableEq, Repr

/-- `getUsedBounds` (trim-capable editor, lines 154–175): scan all cells and
record the extremal row/column of every cell satisfying
`cell.isFixed || cell.fixed || cell.right || cell.down`, then clamp the
sentinels to `0`. -/
def getUsedBounds (rows cols : Nat) (cells : List EditCell) : UsedBounds :=
  let b := cells.enum.foldl
    (fun (b : UsedBounds) ic =>
      let i := ic.1
      let cell := ic.2
      if cell.isFixed || cell.fixedTruthy || cell.right || cell.down then
        let row : Int := (i / cols : Nat)
        let col : Int := (i % cols : Nat)
        { minRow := min b.minRow row, maxRow := max b.maxRow row,
          minCol := min b.minCol col, maxCol := max b.maxCol col }
      else b)
    { minRow := (rows : Int), maxRow := -1, minCol := (cols : Int), maxCol := -1 }
  { minRow := if b.minRow = (rows : Int) then 0 else b.minRow
    maxRow := if b.maxRow = -1 then 0 else b.maxRow
    minCol := if b.minCol = (cols : Int) then 0 else b.minCol
    maxCol := if b.maxCol = -1 then 0 else b.maxCol }

/-- The result of `trimGrid` (trim-capable editor, lines 178–211). -/
structure TrimResult where
  rows : Nat
  cols : Nat
  cells : List EditCell
  solutions : List (Nat × JStr)
deriving DecidableEq, Repr

/-- The trimmed cell list shared by `trimGrid` and `autoTrim`: for each
position of the bounding box, copy the old cell (or a default cell when the
old index is out of range), row-major. -/
def trimmedCellList (cols : Nat) (cells : List EditCell)
    (bounds : UsedBounds) (trimmedRows trimmedCols : Nat) : List EditCell :=
  (List.range trimmedRows).flatMap (fun newRow =>
    (List.range trimmedCols).map (fun newCol =>
      let oldRow := bounds.minRow.toNat + newRow
      let oldCol := bounds.minCol.toNat + newCol
      let oldIndex := oldRow * cols + oldCol
      match cells[oldIndex]? with
      | some oldCell => oldCell
      | none => defaultEditCell))

/-- `trimGrid` (trim-capable editor, lines 178–211): crop to the used
bounding box, collecting a solutions record from every non-fixed cell with a
word. -/
def trimGrid (rows cols : Nat) (cells : List EditCell) : TrimResult :=
  let bounds := getUsedBounds rows cols cells
  let trimmedRows := (bounds.maxRow - bounds.minRow + 1).toNat
  let trimmedCols := (bounds.maxCol - bounds.minCol + 1).toNat
  let trimmedCells := trimmedCellList cols cells bounds trimmedRows trimmedCols
  { rows := trimmedRows
    cols := trimmedCols
    cells := trimmedCells
    solutions :=
      trimmedCells.enum.foldr
        (fun ic acc =>
          match ic.2.fixed with
          | some w => if !ic.2.isFixed && !w.isEmpty then (ic.1, w) :: acc else acc
          | none => acc)
        [] }

/-- `autoTrim` (trim-capable editor, lines 274–304): when the used bounding
box is strictly inside the grid, replace `rows`, `cols` and `cells` by the
cropped versions; otherwise leave the grid unchanged.  Returns the new
`(rows, cols, cells)`. -/
def autoTrim (rows cols : Nat) (cells : List EditCell) : Nat × Nat × List EditCell :=
  let bounds := getUsedBounds rows cols cells
  if bounds.minRow > 0 ∨ bounds.maxRow < (rows : Int) - 1 ∨
     bounds.minCol > 0 ∨ bounds.maxCol < (cols : Int) - 1 then
    let trimmedRows := (bounds.maxRow - bounds.minRow + 1).toNat
    let trimmedCols := (bounds.maxCol - bounds.minCol + 1).toNat
    (trimmedRows, trimmedCols, trimmedCellList cols cells bounds trimmedRows trimmedCols)
  else (rows, cols, cells)

/-- The editor metadata record `meta` (`{ id, date, title, author }`). -/
structure EditorMeta where
  id : JStr
  date : JStr
  title : JStr
  author : JStr
deriving DecidableEq, Repr

/-- `buildPuzzle` of the trim-capable editor (lines 213–231): trim, map the
cells, derive arrows from the trimmed flags, and set `id := meta.date`
("Always use date as ID"). -/
def buildPuzzle (meta : EditorMeta) (rows cols : Nat) (cells : List EditCell) : Puzzle :=
  let trimmed := trimGrid rows cols cells
  let grid : Grid :=
    { rows := trimmed.rows
      cols := trimmed.cols
      cells := trimmed.cells.map
        (fun c => if c.isFixed && c.fixedTruthy then { fixed := c.fixed } else {})
      arrows := deriveArrows trimmed.rows trimmed.cols trimmed.cells }
  { id := meta.date
    date := meta.date
    title := if meta.title.isEmpty then none else some meta.title
    author := if meta.author.isEmpty then none else some meta.author
    grid := grid
    solutions := trimmed.solutions }

/-- `buildPuzzle` of the legacy editor (`EditorView.svelte`, lines 58–77):
no trimming, and `id := meta.id || meta.date`. -/
def buildPuzzleLegacy (meta : EditorMeta) (rows cols : Nat) (cells : List EditCell) : Puzzle :=
  let grid : Grid :=
    { rows := rows
      cols := cols
      cells := cells.map
        (fun c => if c.isFixed && c.fixedTruthy then { fixed := c.fixed } else {})
      arrows := deriveArrows rows cols cells }
  { id := if meta.id.isEmpty then meta.date else meta.id
    date := meta.date
    title := if meta.title.isEmpty then none else some meta.title
    author := if meta.author.isEmpty then none else some meta.author
    grid := grid
    solutions :=
      cells.enum.foldr
        (fun ic acc =>
          match ic.2.fixed with
          | some w => if !ic.2.isFixed && !w.isEmpty then (ic.1, w) :: acc else acc
          | none => acc)
        [] }

/-! ## Derived notions and concrete fixtures -/

/-- The per-cell success test that `submitAnswers` accumulates into its
returned boolean: the pre-submit display matches the solution word, or the
pre-submit user entry is empty. -/
def okCell (st : GameState) (e : Nat × JStr) : Bool :=
  decide (st.reveals e.1 ++ st.entries e.1 = e.2) || decide (st.entries e.1 = [])

/-- A cell with no fixed word and no hint (`{}` in the TS literals). -/
def blankCell : Cell := {}

/-- A play state with nothing entered, revealed, locked or flagged. -/
def emptyState : GameState where
  entries := fun _ => []
  reveals := fun _ => []
  focusedCell := none
  lockedCells := ∅
  incorrectCells := ∅
  attempts := 0

/-- A single-solution key set: cell `0` must spell `"a"`. -/
def solsOne : List (Nat × JStr) := [(0, js ("a"))]

/-- One-cell puzzle whose solution for cell `0` is `"a"`. -/
def puzzleOneA : Puzzle where
  id := js ("p")
  date := js ("2025-01-01")
  grid := { rows := 1, cols := 1, cells := [{}], arrows := [] }
  solutions := [(0, js ("a"))]

/-- One-cell puzzle whose solution for cell `0` is `"ab"`. -/
def puzzleOneAB : Puzzle where
  id := js ("p")
  date := js ("2025-01-01")
  grid := { rows := 1, cols := 1, cells := [{}], arrows := [] }
  solutions := [(0, js ("ab"))]

/-- One-cell puzzle whose solution for cell `0` is `"abc"`. -/
def puzzleOneABC : Puzzle where
  id := js ("p")
  date := js ("2025-01-01")
  grid := { rows := 1, cols := 1, cells := [{}], arrows := [] }
  solutions := [(0, js ("abc"))]

/-- Cell `0` fully revealed as `"a"` with the stray entry `"x"` typed after
the reveal (reachable: fully reveal, then type one extra letter). -/
def stRevealedJunk : GameState :=
  { emptyState with
    focusedCell := some 0
    reveals := fun j => if j = 0 then js ("a") else []
    entries := fun j => if j = 0 then js ("x") else [] }

/-- Cell `0` answered with the entry `"a"`, nothing revealed. -/
def stTypedA : GameState :=
  { emptyState with entries := fun j => if j = 0 then js ("a") else [] }

/-- Cell `0` focused with the reveal `"a"` already granted. -/
def stRevealOne : GameState :=
  { emptyState with
    focusedCell := some 0
    reveals := fun j => if j = 0 then js ("a") else [] }

/-- Cell `0` locked while holding reveal `"a"` and entry `"b"` (reachable:
lock `"ab"` after one reveal, per the missing lock check of `revealLetter`). -/
def stLockedPartial : GameState :=
  { emptyState with
    focusedCell := some 0
    reveals := fun j => if j = 0 then js ("a") else []
    entries := fun j => if j = 0 then js ("b") else []
    lockedCells := {0} }

/-- Cell `0` locked while holding reveal `"a"` and entry `"bc"`. -/
def stLockedPartial3 : GameState :=
  { emptyState with
    focusedCell := some 0
    reveals := fun j => if j = 0 then js ("a") else []
    entries := fun j => if j = 0 then js ("bc") else []
    lockedCells := {0} }

/-- The demo play state right after one fruitless submit. -/
def stAfterSubmit : GameState :=
  (submitAnswers makeDemoPuzzle.solutions (loadPuzzleState makeDemoPuzzle)).1

/-- Editor grid content for the trim scenario: a 1×2 grid whose cell `0`
carries a right arrow into cell `1`, and cell `1` is otherwise empty. -/
def cellsArrowOnly : List EditCell := [{ right := true }, {}]

/-- Editor metadata with an explicitly entered id that differs from the date. -/
def metaCustomId : EditorMeta :=
  { id := js ("custom"), date := js ("2025-01-02"), title := [], author := [] }

/-- A one-cell editor grid holding the solution word `"cat"`. -/
def edCellsOne : List EditCell := [{ fixed := some (js ("cat")) }]

/-- The tile completions of the spec's scoring scenario: cell `1` locked at
`(time 12, submits 1)`, cell `2` at `(time 30, submits 2)`. -/
def tcDemo : Nat → Option Completion := fun i =>
  if i = 1 then some ⟨12, 1⟩ else if i = 2 then some ⟨30, 2⟩ else none

/-! ## Helper lemmas about the `submitAnswers` fold -/

theorem submitStep_reveals (acc : GameState × Bool) (e : Nat × JStr) :
    (submitStep acc e).1.reveals = acc.1.reveals := by
  unfold submitStep
  dsimp only
  split
  · rfl
  · split
    · rfl
    · rfl

theorem submitStep_focused (acc : GameState × Bool) (e : Nat × JStr) :
    (submitStep acc e).1.focusedCell = acc.1.focusedCell := by
  unfold submitStep
  dsimp only
  split
  · rfl
  · split
    · rfl
    · rfl

theorem submitStep_attempts (acc : GameState × Bool) (e : Nat × JStr) :
    (submitStep acc e).1.attempts = acc.1.attempts := by
  unfold submitStep
  dsimp only
  split
  · rfl
  · split
    · rfl
    · rfl

theorem submitStep_locked_mono (acc : GameState × Bool) (e : Nat × JStr) :
    acc.1.lockedCells ⊆ (submitStep acc e).1.lockedCells := by
  unfold submitStep
  dsimp only
  split
  · exact Finset.subset_insert _ _
  · split
    · exact Finset.Subset.refl _
    · exact Finset.Subset.refl _

theorem submitStep_entries_ne (acc : GameState × Bool) (e : Nat × JStr) (j : Nat)
    (h : j ≠ e.1) : (submitStep acc e).1.entries j = acc.1.entries j := by
  unfold submitStep
  dsimp only
  split
  · rfl
  · split
    · simp [h]
    · rfl

theorem submitStep_locked_ne (acc : GameState × Bool) (e : Nat × JStr) (j : Nat)
    (h : j ≠ e.1) :
    (j ∈ (submitStep acc e).1.lockedCells ↔ j ∈ acc.1.lockedCells) := by
  unfold submitStep
  dsimp only
  split
  · simp [Finset.mem_insert, h]
  · split
    · exact Iff.rfl
    · exact Iff.rfl

theorem submitStep_incorrect_ne (acc : GameState × Bool) (e : Nat × JStr) (j : Nat)
    (h : j ≠ e.1) :
    (j ∈ (submitStep acc e).1.incorrectCells ↔ j ∈ acc.1.incorrectCells) := by
  unfold submitStep
  dsimp only
  split
  · simp [Finset.mem_erase, h]
  · split
    · simp [Finset.mem_insert, h]
    · exact Iff.rfl

theorem foldl_submitStep_reveals (sols : List (Nat × JStr)) :
    ∀ acc : GameState × Bool,
      (sols.foldl submitStep acc).1.reveals = acc.1.reveals := by
  induction sols with
  | nil => intro acc; rfl
  | cons e t ih =>
      intro acc
      rw [List.foldl_cons, ih, submitStep_reveals]

theorem foldl_submitStep_focused (sols : List (Nat × JStr)) :
    ∀ acc : GameState × Bool,
      (sols.foldl submitStep acc).1.focusedCell = acc.1.focusedCell := by
  induction sols with
  | nil => intro acc; rfl
  | cons e t ih =>
      intro acc
      rw [List.foldl_cons, ih, submitStep_focused]

theorem foldl_submitStep_attempts (sols : List (Nat × JStr)) :
    ∀ acc : GameState × Bool,
      (sols.foldl submitStep acc).1.attempts = acc.1.attempts := by
  induction sols with
  | nil => intro acc; rfl
  | cons e t ih =>
      intro acc
      rw [List.foldl_cons, ih, submitStep_attempts]

theorem foldl_submitStep_locked_mono (sols : List (Nat × JStr)) :
    ∀ acc : GameState × Bool,
      acc.1.lockedCells ⊆ (sols.foldl submitStep acc).1.lockedCells := by
  induction sols with
  | nil => intro acc; exact Finset.Subset.refl _
  | cons e t ih =>
      intro acc
      rw [List.foldl_cons]
      exact (submitStep_locked_mono acc e).trans (ih _)

theorem foldl_submitStep_preserve_key (sols : List (Nat × JStr)) :
    ∀ (acc : GameState × Bool) (i : Nat), (∀ e ∈ sols, e.1 ≠ i) →
      ((sols.foldl submitStep acc).1.entries i = acc.1.entries i ∧
       (i ∈ (sols.foldl submitStep acc).1.lockedCells ↔ i ∈ acc.1.lockedCells) ∧
       (i ∈ (sols.foldl submitStep acc).1.incorrectCells ↔ i ∈ acc.1.incorrectCells)) := by
  induction sols with
  | nil => intro acc i _; exact ⟨rfl, Iff.rfl, Iff.rfl⟩
  | cons e t ih =>
      intro acc i h
      rw [List.foldl_cons]
      have he : e.1 ≠ i := h e (List.mem_cons_self e t)
      have ht : ∀ e' ∈ t, e'.1 ≠ i := fun e' h' => h e' (List.mem_cons_of_mem e h')
      obtain ⟨h1, h2, h3⟩ := ih (submitStep acc e) i ht
      refine ⟨h1.trans (submitStep_entries_ne acc e i (Ne.symm he)), ?_, ?_⟩
      · exact h2.trans (submitStep_locked_ne acc e i (Ne.symm he))
      · exact h3.trans (submitStep_incorrect_ne acc e i (Ne.symm he))

theorem submitStep_self (acc : GameState × Bool) (i : Nat) (w : JStr) :
    ((i ∈ (submitStep acc (i, w)).1.lockedCells ↔
       (acc.1.reveals i ++ acc.1.entries i = w ∨ i ∈ acc.1.lockedCells)) ∧
     ((submitStep acc (i, w)).1.entries i =
       if acc.1.reveals i ++ acc.1.entries i = w ∨ acc.1.entries i = []
       then acc.1.entries i else [])) := by
  unfold submitStep
  dsimp only
  split
  · rename_i hfull
    constructor
    · simp [Finset.mem_insert, hfull]
    · simp [hfull]
  · rename_i hfull
    split
    · rename_i hne
      constructor
      · simp [hfull]
      · simp [hfull, hne]
    · rename_i hne
      rw [not_not] at hne
      constructor
      · simp [hfull]
      · simp [hne]

theorem foldl_submitStep_snd (sols : List (Nat × JStr)) :
    ∀ (st0 : GameState) (b : Bool) (stO : GameState),
      (∀ e ∈ sols, st0.entries e.1 = stO.entries e.1 ∧ st0.reveals e.1 = stO.reveals e.1) →
      (sols.map Prod.fst).Nodup →
      (sols.foldl submitStep (st0, b)).2 = (b && sols.all (okCell stO)) := by
  induction sols with
  | nil => intro st0 b stO _ _; simp
  | cons e t ih =>
      intro st0 b stO hag hnd
      have hagE := hag e (List.mem_cons_self e t)
      have hagT : ∀ e' ∈ t, st0.entries e'.1 = stO.entries e'.1 ∧
          st0.reveals e'.1 = stO.reveals e'.1 :=
        fun e' h' => hag e' (List.mem_cons_of_mem e h')
      rw [List.map_cons, List.nodup_cons] at hnd
      have hfresh : ∀ e' ∈ t, e'.1 ≠ e.1 := by
        intro e' h' hEq
        exact hnd.1 (hEq ▸ List.mem_map_of_mem Prod.fst h')
      rw [List.foldl_cons, List.all_cons]
      -- characterize the first step
      have hstep1 : ∀ e' ∈ t,
          (submitStep (st0, b) e).1.entries e'.1 = stO.entries e'.1 ∧
          (submitStep (st0, b) e).1.reveals e'.1 = stO.reveals e'.1 := by
        intro e' h'
        refine ⟨?_, ?_⟩
        · rw [submitStep_entries_ne (st0, b) e e'.1 (hfresh e' h')]
          exact (hagT e' h').1
        · rw [submitStep_reveals]
          exact (hagT e' h').2
      have hsnd : (submitStep (st0, b) e).2 = (b && okCell stO e) := by
        unfold submitStep okCell
        dsimp only
        rw [hagE.1, hagE.2]
        split
        · rename_i hfull
          simp [hfull]
        · rename_i hfull
          split
          · rename_i hne
            simp [hfull, hne]
          · rename_i hne
            rw [not_not] at hne
            simp [hne]
      have := ih (submitStep (st0, b) e).1 (submitStep (st0, b) e).2 stO hstep1 hnd.2
      rw [show (submitStep (st0, b) e) = ((submitStep (st0, b) e).1, (submitStep (st0, b) e).2) from rfl] at *
      rw [this, hsnd, Bool.and_assoc]

/-- Characterization of `submitAnswers` at a solution key `i` (with
duplicate-free keys, as in a JS record): after the call, `i` is locked iff
its pre-submit display matched the word or it was already locked, and its
entry survives iff it matched or was empty. -/
theorem submitAnswers_key_spec (sols : List (Nat × JStr)) (st : GameState)
    (i : Nat) (w : JStr)
    (hnd : (sols.map Prod.fst).Nodup) (hmem : (i, w) ∈ sols) :
    ((i ∈ (submitAnswers sols st).1.lockedCells ↔
       (st.reveals i ++ st.entries i = w ∨ i ∈ st.lockedCells)) ∧
     ((submitAnswers sols st).1.entries i =
       if st.reveals i ++ st.entries i = w ∨ st.entries i = []
       then st.entries i else [])) := by
  obtain ⟨l1, l2, rfl⟩ := List.append_of_mem hmem
  have hmap : ((l1 ++ (i, w) :: l2).map Prod.fst) =
      l1.map Prod.fst ++ i :: l2.map Prod.fst := by
    rw [List.map_append, List.map_cons]
  rw [hmap, List.nodup_append] at hnd
  have hi1 : ∀ e ∈ l1, e.1 ≠ i := by
    intro e h hEq
    exact hnd.2.2 (hEq ▸ List.mem_map_of_mem Prod.fst h) (List.mem_cons_self _ _)
  have hi2 : ∀ e ∈ l2, e.1 ≠ i := by
    intro e h hEq
    rw [List.nodup_cons] at hnd
    exact hnd.2.1.1 (hEq ▸ List.mem_map_of_mem Prod.fst h)
  unfold submitAnswers
  rw [List.foldl_append, List.foldl_cons]
  set acc0 : GameState × Bool := ({ st with attempts := st.attempts + 1 }, true) with hacc0
  set acc1 := l1.foldl submitStep acc0 with hacc1
  -- the fold over `l1` does not touch key `i`
  obtain ⟨hE1, hL1, _⟩ := foldl_submitStep_preserve_key l1 acc0 i hi1
  have hR1 : acc1.1.reveals = st.reveals := foldl_submitStep_reveals l1 acc0
  have hE1' : acc1.1.entries i = st.entries i := hE1
  have hL1' : i ∈ acc1.1.lockedCells ↔ i ∈ st.lockedCells := hL1
  -- the step at `(i, w)` itself
  obtain ⟨hLs, hEs⟩ := submitStep_self acc1 i w
  rw [hR1, hE1'] at hLs hEs
  -- the fold over `l2` does not touch key `i` either
  obtain ⟨hE2, hL2, _⟩ :=
    foldl_submitStep_preserve_key l2 (submitStep acc1 (i, w)) i hi2
  constructor
  · rw [hL2, hLs, hL1']
  · rw [hE2, hEs]

theorem submitAnswers_reveals (sols : List (Nat × JStr)) (st : GameState) :
    (submitAnswers sols st).1.reveals = st.reveals :=
  foldl_submitStep_reveals sols _

/-! ## Claim theorems -/

/-- C9 (confirmed): a call to `submitAnswers` leaves `reveals` unchanged at
every cell, never removes an element from `lockedCells`, leaves
`focusedCell` unchanged, and increments `attempts` by exactly one — so only
`entries`, `incorrectCells`, `lockedCells` (by additions) and `attempts`
can change. -/
theorem submitAnswers_frame (sols : List (Nat × JStr)) (st : GameState) :
    (submitAnswers sols st).1.reveals = st.reveals ∧
    st.lockedCells ⊆ (submitAnswers sols st).1.lockedCells ∧
    (submitAnswers sols st).1.focusedCell = st.focusedCell ∧
    (submitAnswers sols st).1.attempts = st.attempts + 1 := by
  refine ⟨submitAnswers_reveals sols st, ?_, ?_, ?_⟩
  · exact foldl_submitStep_locked_mono sols ({ st with attempts := st.attempts + 1 }, true)
  · exact foldl_submitStep_focused sols ({ st with attempts := st.attempts + 1 }, true)
  · exact foldl_submitStep_attempts sols ({ st with attempts := st.attempts + 1 }, true)

/-- C1 (counterexample): on a fresh state for a puzzle with the single
solution cell `0 ↦ "a"` left completely empty, `submitAnswers` returns
`true` while `isSolved` is still `false` afterwards — the returned boolean
does not equal "every solution key is locked". -/
theorem submitAnswers_true_but_unsolved :
    (submitAnswers solsOne emptyState).2 = true ∧
    isSolved solsOne (submitAnswers solsOne emptyState).1 = false := by
  constructor
  · decide
  · decide

/-- C1 (amended): the boolean returned by `submitAnswers` is `true` iff
every solution cell either displayed the correct word at submit time or had
an empty user entry (was unattempted); unattempted cells do not falsify the
result, so it can be `true` while `isSolved` is `false`. -/
theorem submitAnswers_return_characterization (sols : List (Nat × JStr))
    (st : GameState) (hnd : (sols.map Prod.fst).Nodup) :
    ((submitAnswers sols st).2 = true ↔
      ∀ e ∈ sols, getDisplayValue st e.1 = e.2 ∨ st.entries e.1 = []) := by
  have h := foldl_submitStep_snd sols { st with attempts := st.attempts + 1 } true st
    (fun _ _ => ⟨rfl, rfl⟩) hnd
  unfold submitAnswers
  rw [h, Bool.true_and, List.all_eq_true]
  constructor
  · intro hall e he
    have := hall e he
    unfold okCell at this
    rcases Bool.or_eq_true_iff.mp this with h' | h'
    · exact Or.inl (of_decide_eq_true h')
    · exact Or.inr (of_decide_eq_true h')
  · intro hall e he
    unfold okCell
    rcases hall e he with h' | h'
    · exact Bool.or_eq_true_iff.mpr (Or.inl (decide_eq_true h'))
    · exact Bool.or_eq_true_iff.mpr (Or.inr (decide_eq_true h'))

/-- C1 (witness): the amended characterization applied to the concrete
one-cell puzzle with an untouched state. -/
theorem submitAnswers_return_characterization_witness :
    (solsOne.map Prod.fst).Nodup ∧
    ((submitAnswers solsOne emptyState).2 = true ↔
      ∀ e ∈ solsOne, getDisplayValue emptyState e.1 = e.2 ∨ emptyState.entries e.1 = []) :=
  ⟨by decide, submitAnswers_return_characterization solsOne emptyState (by decide)⟩

/-- C2 (counterexample): for the puzzle with solution `0 ↦ "a"`, the state
with cell `0` fully revealed (`"a"`) plus the junk entry `"x"`: right after
`submitAnswers` the display value equals the solution word, yet cell `0` is
not in `lockedCells` (it was even flagged incorrect). -/
theorem submitAnswers_display_eq_without_lock :
    getDisplayValue (submitAnswers solsOne stRevealedJunk).1 0 = js ("a") ∧
    (0 ∉ (submitAnswers solsOne stRevealedJunk).1.lockedCells) ∧
    0 ∈ (submitAnswers solsOne stRevealedJunk).1.incorrectCells := by
  refine ⟨by decide, by decide, by decide⟩

/-- C2 (amended): right after `submitAnswers`, for a solution cell that was
not already locked and whose revealed part is not the entire solution
word, the display value equals the solution word iff the cell is in
`lockedCells`.  (Already-locked cells and fully revealed cells with a junk
entry can violate the equivalence.) -/
theorem submitAnswers_display_iff_locked (sols : List (Nat × JStr))
    (st : GameState) (i : Nat) (w : JStr)
    (hnd : (sols.map Prod.fst).Nodup) (hmem : (i, w) ∈ sols)
    (hlock : i ∉ st.lockedCells) (hrev : st.reveals i ≠ w) :
    (getDisplayValue (submitAnswers sols st).1 i = w ↔
      i ∈ (submitAnswers sols st).1.lockedCells) := by
  obtain ⟨hL, hE⟩ := submitAnswers_key_spec sols st i w hnd hmem
  have hdisp : getDisplayValue (submitAnswers sols st).1 i =
      st.reveals i ++ (submitAnswers sols st).1.entries i := by
    unfold getDisplayValue
    rw [submitAnswers_reveals]
  by_cases hc : st.reveals i ++ st.entries i = w
  · rw [hdisp, hE, if_pos (Or.inl hc), hc]
    simp only [true_iff]
    exact hL.mpr (Or.inl hc)
  · have hnotlocked : i ∉ (submitAnswers sols st).1.lockedCells := by
      intro h
      rcases hL.mp h with h' | h'
      · exact hc h'
      · exact hlock h'
    rw [hdisp, hE]
    by_cases he : st.entries i = []
    · rw [if_pos (Or.inr he), he]
      simp only [List.append_nil]
      exact iff_of_false hrev hnotlocked
    · rw [if_neg (by tauto)]
      simp only [List.append_nil]
      exact iff_of_false hrev hnotlocked

/-- C2 (witness): the amended equivalence applied to the one-cell puzzle
with the correct answer typed: the display matches and the cell locks. -/
theorem submitAnswers_display_iff_locked_witness :
    ((solsOne.map Prod.fst).Nodup ∧ (0, js ("a")) ∈ solsOne ∧
     0 ∉ stTypedA.lockedCells ∧ stTypedA.reveals 0 ≠ js ("a")) ∧
    (getDisplayValue (submitAnswers solsOne stTypedA).1 0 = js ("a") ↔
      0 ∈ (submitAnswers solsOne stTypedA).1.lockedCells) :=
  ⟨⟨by decide, by decide, by decide, by decide⟩,
   submitAnswers_display_iff_locked solsOne stTypedA 0 (js ("a"))
     (by decide) (by decide) (by decide) (by decide)⟩

/-- Reduction of `revealLetter` when all of its guard conditions pass. -/
theorem revealLetter_eq (p : Puzzle) (st : GameState) (i : Nat) (cell : Cell)
    (s : JStr)
    (hfoc : st.focusedCell = some i)
    (hget : p.grid.cells[i]? = some cell)
    (hnf : cell.fixedTruthy = false)
    (hsol : p.solutions.lookup i = some s)
    (hne : s ≠ []) :
    revealLetter p st =
      { st with
        entries := fun j => if j = i then [] else st.entries j,
        reveals := fun j =>
          if j = i then (s.take (min ((st.reveals i).length + 1) s.length)).map Char.toLower
          else st.reveals j,
        incorrectCells := st.incorrectCells.erase i } := by
  have hie : s.isEmpty = false := by
    cases s with
    | nil => exact absurd rfl hne
    | cons a t => rfl
  unfold revealLetter
  rw [hfoc]
  dsimp only
  rw [hget]
  dsimp only
  rw [hnf]
  simp only [Bool.false_eq_true, if_false]
  rw [hsol]
  dsimp only
  rw [hie]
  simp only [Bool.false_eq_true, if_false]

/-- C3 (counterexample): after one (fruitless) submit on the freshly loaded
demo puzzle, `resetPuzzle` yields `focusedCell = none` and `attempts = 1`,
while a fresh load of the same puzzle has `focusedCell = some 1` and
`attempts = 0` — the reset state is not the fresh-load state. -/
theorem resetPuzzle_differs_from_fresh :
    (resetPuzzle stAfterSubmit).focusedCell = none ∧
    (loadPuzzleState makeDemoPuzzle).focusedCell = some 1 ∧
    (resetPuzzle stAfterSubmit).attempts = 1 ∧
    (loadPuzzleState makeDemoPuzzle).attempts = 0 := by
  refine ⟨rfl, by decide, by decide, rfl⟩

/-- C3 (amended): `resetPuzzle` restores `entries`, `reveals`, `lockedCells`
and `incorrectCells` to the fresh-load empty values, but it sets
`focusedCell` to `none` — whereas a fresh load focuses the first non-fixed
cell (index `0` as a fallback) — and it leaves `attempts` unchanged rather
than resetting it to `0`. -/
theorem resetPuzzle_state_spec (st : GameState) (p : Puzzle) :
    (resetPuzzle st).entries = (loadPuzzleState p).entries ∧
    (resetPuzzle st).reveals = (loadPuzzleState p).reveals ∧
    (resetPuzzle st).lockedCells = (loadPuzzleState p).lockedCells ∧
    (resetPuzzle st).incorrectCells = (loadPuzzleState p).incorrectCells ∧
    (resetPuzzle st).focusedCell = none ∧
    (loadPuzzleState p).focusedCell = some ((firstEmptyCell p.grid).getD 0) ∧
    (resetPuzzle st).attempts = st.attempts :=
  ⟨rfl, rfl, rfl, rfl, rfl, rfl, rfl⟩

/-- C4 (counterexample): with cell `0`'s solution `"a"` fully revealed and
the extra entry `"x"` typed after it, a further `revealLetter` call is not a
no-op: it leaves the reveal unchanged but clears the entry. -/
theorem revealLetter_full_not_noop :
    (revealLetter puzzleOneA stRevealedJunk).reveals 0 = stRevealedJunk.reveals 0 ∧
    stRevealedJunk.entries 0 = js ("x") ∧
    (revealLetter puzzleOneA stRevealedJunk).entries 0 = [] := by
  refine ⟨by decide, by decide, by decide⟩

/-- C4 (amended): for a focused, non-fixed solution cell whose current
reveal is the lowercase length-`k` solution stem, `revealLetter` always
clears the cell's entry; while `k < len(solution)` it grows the reveal to
the lowercase length-`k+1` stem (one more character per call), and once
`k = len(solution)` further calls leave every reveal unchanged — but still
clear the entry and the incorrect flag, so they are no-ops on `reveals`
only, not on the whole state. -/
theorem revealLetter_progress (p : Puzzle) (st : GameState) (i : Nat)
    (cell : Cell) (s : JStr) (k : Nat)
    (hfoc : st.focusedCell = some i)
    (hget : p.grid.cells[i]? = some cell)
    (hnf : cell.fixedTruthy = false)
    (hsol : p.solutions.lookup i = some s)
    (hne : s ≠ [])
    (hk : st.reveals i = (s.take k).map Char.toLower)
    (hkle : k ≤ s.length) :
    ((revealLetter p st).entries i = [] ∧
     i ∉ (revealLetter p st).incorrectCells) ∧
    (k < s.length →
      (revealLetter p st).reveals i = (s.take (k + 1)).map Char.toLower ∧
      ((revealLetter p st).reveals i).length = k + 1) ∧
    (k = s.length →
      ∀ j, (revealLetter p st).reveals j = st.reveals j) := by
  have h := revealLetter_eq p st i cell s hfoc hget hnf hsol hne
  have hent : (revealLetter p st).entries i = [] := by
    rw [h]
    exact if_pos rfl
  have hrev : ∀ j, (revealLetter p st).reveals j =
      if j = i then (s.take (min ((st.reveals i).length + 1) s.length)).map Char.toLower
      else st.reveals j := by
    rw [h]
    intro j
    rfl
  have hinc : (revealLetter p st).incorrectCells = st.incorrectCells.erase i := by
    rw [h]
  have hlen : (st.reveals i).length = k := by
    rw [hk, List.length_map, List.length_take]
    exact min_eq_left hkle
  refine ⟨⟨hent, by rw [hinc]; simp [Finset.mem_erase]⟩, ?_, ?_⟩
  · intro hlt
    have hmin : min ((st.reveals i).length + 1) s.length = k + 1 := by
      rw [hlen]
      exact min_eq_left hlt
    refine ⟨by rw [hrev i, if_pos rfl, hmin], ?_⟩
    rw [hrev i, if_pos rfl, hmin, List.length_map, List.length_take]
    exact min_eq_left hlt
  · intro hkeq j
    by_cases hj : j = i
    · subst hj
      have hmin : min ((st.reveals j).length + 1) s.length = s.length := by
        rw [hlen, hkeq]
        exact min_eq_right (Nat.le_succ _)
      rw [hrev j, if_pos rfl, hmin, List.take_length, hk, hkeq, List.take_length]
    · rw [hrev j, if_neg hj]

/-- C4 (witness): the amended statement applied to the one-cell `"ab"`
puzzle with reveal `"a"` (`k = 1`): the next call yields reveal `"ab"`. -/
theorem revealLetter_progress_witness :
    (stRevealOne.focusedCell = some 0 ∧
     puzzleOneAB.grid.cells[0]? = some blankCell ∧
     blankCell.fixedTruthy = false ∧
     puzzleOneAB.solutions.lookup 0 = some (js ("ab")) ∧
     js ("ab") ≠ [] ∧
     stRevealOne.reveals 0 = ((js ("ab")).take 1).map Char.toLower ∧
     1 ≤ (js ("ab")).length) ∧
    (((revealLetter puzzleOneAB stRevealOne).entries 0 = [] ∧
      0 ∉ (revealLetter puzzleOneAB stRevealOne).incorrectCells) ∧
     (1 < (js ("ab")).length →
       (revealLetter puzzleOneAB stRevealOne).reveals 0 =
         ((js ("ab")).take 2).map Char.toLower ∧
       ((revealLetter puzzleOneAB stRevealOne).reveals 0).length = 2) ∧
     (1 = (js ("ab")).length →
       ∀ j, (revealLetter puzzleOneAB stRevealOne).reveals j = stRevealOne.reveals j)) :=
  ⟨⟨by decide, by decide, by decide, by decide, by decide, by decide, by decide⟩,
   revealLetter_progress puzzleOneAB stRevealOne 0 blankCell (js ("ab")) 1
     (by decide) (by decide) (by decide) (by decide) (by decide) (by decide) (by decide)⟩

/-- C10 (counterexample): cell `0` is locked with solution `"ab"`, reveal
`"a"` (not yet full length) and entry `"b"`; `revealLetter` still fires, but
afterwards the display value equals the solution — the claim's consequence
"the display no longer equals the solution" fails at this input. -/
theorem revealLetter_locked_display_matches :
    0 ∈ stLockedPartial.lockedCells ∧
    (stLockedPartial.reveals 0).length < (js ("ab")).length ∧
    puzzleOneAB.solutions.lookup 0 = some (js ("ab")) ∧
    getDisplayValue (revealLetter puzzleOneAB stLockedPartial) 0 = js ("ab") ∧
    0 ∈ (revealLetter puzzleOneAB stLockedPartial).lockedCells := by
  refine ⟨by decide, by decide, by decide, by decide, by decide⟩

/-- C10 (amended): lockedness is not among `revealLetter`'s no-op
conditions: on a focused, non-fixed solution cell that is locked with a
lowercase length-`k` reveal stem, the call still clears the entry and
extends the reveal to length `k+1`, and the cell stays locked; provided the
new reveal is still shorter than the solution (`k + 1 < len(solution)`),
the display value then differs from the solution word. -/
theorem revealLetter_ignores_lock (p : Puzzle) (st : GameState) (i : Nat)
    (cell : Cell) (s : JStr) (k : Nat)
    (hfoc : st.focusedCell = some i)
    (hget : p.grid.cells[i]? = some cell)
    (hnf : cell.fixedTruthy = false)
    (hsol : p.solutions.lookup i = some s)
    (hk : st.reveals i = (s.take k).map Char.toLower)
    (hlt : k + 1 < s.length)
    (hlock : i ∈ st.lockedCells) :
    (revealLetter p st).entries i = [] ∧
    (revealLetter p st).reveals i = (s.take (k + 1)).map Char.toLower ∧
    i ∈ (revealLetter p st).lockedCells ∧
    getDisplayValue (revealLetter p st) i ≠ s := by
  have hne : s ≠ [] := by
    intro h
    rw [h] at hlt
    exact absurd hlt (by simp)
  have h := revealLetter_eq p st i cell s hfoc hget hnf hsol hne
  have hlen : (st.reveals i).length = k := by
    rw [hk, List.length_map, List.length_take]
    exact min_eq_left (le_of_lt (Nat.lt_of_succ_lt hlt))
  have hmin : min ((st.reveals i).length + 1) s.length = k + 1 := by
    rw [hlen]
    exact min_eq_left (le_of_lt hlt)
  have hent : (revealLetter p st).entries i = [] := by
    rw [h]
    exact if_pos rfl
  have hrev : (revealLetter p st).reveals i = (s.take (k + 1)).map Char.toLower := by
    rw [h]
    show (if i = i then (s.take (min ((st.reveals i).length + 1) s.length)).map Char.toLower
          else st.reveals i) = _
    rw [if_pos rfl, hmin]
  have hlocked : (revealLetter p st).lockedCells = st.lockedCells := by
    rw [h]
  refine ⟨hent, hrev, by rw [hlocked]; exact hlock, ?_⟩
  unfold getDisplayValue
  rw [hrev, hent]
  intro hcontra
  have hcl := congrArg List.length hcontra
  simp only [List.length_append, List.length_map, List.length_take,
    List.length_nil, Nat.add_zero] at hcl
  rw [min_eq_left (le_of_lt hlt)] at hcl
  exact absurd hcl (Nat.ne_of_lt hlt)

/-- C10 (witness): the amended statement applied to the locked `"abc"` cell
with reveal `"a"` and entry `"bc"` (`k = 1`, `k + 1 < 3`). -/
theorem revealLetter_ignores_lock_witness :
    (stLockedPartial3.focusedCell = some 0 ∧
     puzzleOneABC.grid.cells[0]? = some blankCell ∧
     blankCell.fixedTruthy = false ∧
     puzzleOneABC.solutions.lookup 0 = some (js ("abc")) ∧
     stLockedPartial3.reveals 0 = ((js ("abc")).take 1).map Char.toLower ∧
     1 + 1 < (js ("abc")).length ∧
     0 ∈ stLockedPartial3.lockedCells) ∧
    ((revealLetter puzzleOneABC stLockedPartial3).entries 0 = [] ∧
     (revealLetter puzzleOneABC stLockedPartial3).reveals 0 =
       ((js ("abc")).take 2).map Char.toLower ∧
     0 ∈ (revealLetter puzzleOneABC stLockedPartial3).lockedCells ∧
     getDisplayValue (revealLetter puzzleOneABC stLockedPartial3) 0 ≠ js ("abc")) :=
  ⟨⟨by decide, by decide, by decide, by decide, by decide, by decide, by decide⟩,
   revealLetter_ignores_lock puzzleOneABC stLockedPartial3 0 blankCell (js ("abc")) 1
     (by decide) (by decide) (by decide) (by decide) (by decide) (by decide) (by decide)⟩

/-- C5 (confirmed): `setEntry` is a no-op on a locked cell and on a value
whose lowercase form is shorter than the current reveal; otherwise it
stores the lowercase suffix past the reveal length and clears the incorrect
flag; and in every case it leaves `reveals i` unchanged, so the display
value's length never drops below `len(reveals[i])`. -/
theorem setEntry_spec (st : GameState) (i : Nat) (v : JStr) :
    (i ∈ st.lockedCells → setEntry st i v = st) ∧
    (i ∉ st.lockedCells → (v.map Char.toLower).length < (st.reveals i).length →
      setEntry st i v = st) ∧
    (i ∉ st.lockedCells → ¬((v.map Char.toLower).length < (st.reveals i).length) →
      ((setEntry st i v).entries i = (v.map Char.toLower).drop (st.reveals i).length ∧
       i ∉ (setEntry st i v).incorrectCells)) ∧
    ((setEntry st i v).reveals i = st.reveals i ∧
     (st.reveals i).length ≤ (getDisplayValue (setEntry st i v) i).length) := by
  refine ⟨?_, ?_, ?_, ?_⟩
  · intro hlock
    unfold setEntry
    rw [if_pos hlock]
  · intro hlock hshort
    unfold setEntry
    rw [if_neg hlock, if_pos hshort]
  · intro hlock hlong
    unfold setEntry
    rw [if_neg hlock, if_neg hlong]
    exact ⟨by simp, by simp [Finset.mem_erase]⟩
  · have hrev : (setEntry st i v).reveals i = st.reveals i := by
      unfold setEntry
      by_cases h1 : i ∈ st.lockedCells
      · rw [if_pos h1]
      · rw [if_neg h1]
        by_cases h2 : (v.map Char.toLower).length < (st.reveals i).length
        · rw [if_pos h2]
        · rw [if_neg h2]
    refine ⟨hrev, ?_⟩
    unfold getDisplayValue
    rw [hrev, List.length_append]
    exact Nat.le_add_right _ _

/-- C5 (witness): `setEntry` on cell `0` with reveal `"a"` and raw value
`"AB"`: the stored entry is the lowercase suffix `"b"`. -/
theorem setEntry_spec_witness :
    (0 ∉ stRevealOne.lockedCells ∧
     ¬(((js ("AB")).map Char.toLower).length < (stRevealOne.reveals 0).length)) ∧
    ((setEntry stRevealOne 0 (js ("AB"))).entries 0 =
       ((js ("AB")).map Char.toLower).drop (stRevealOne.reveals 0).length ∧
     0 ∉ (setEntry stRevealOne 0 (js ("AB"))).incorrectCells) :=
  ⟨⟨by decide, by decide⟩,
   (setEntry_spec stRevealOne 0 (js ("AB"))).2.2.1 (by decide) (by decide)⟩

theorem foldl_add_glist (g : Nat → Nat) (l : List Nat) :
    ∀ b : Nat, l.foldl (fun acc i => acc + g i) b = b + (l.map g).sum := by
  induction l with
  | nil => intro b; simp
  | cons x t ih =>
      intro b
      rw [List.foldl_cons, List.map_cons, List.sum_cons, ih, Nat.add_assoc]

/-- C6 (code_bug): on the 1×2 editor grid whose only content is cell `0`'s
right arrow into cell `1`, cell `1` is used by the editor's own
`isTileUsed` (it is the arrow's target), yet `getUsedBounds` stops at
column `0` and `autoTrim` crops the grid to 1×1, dropping the arrow's
target cell from the trimmed bounds. -/
theorem autoTrim_drops_arrow_target :
    isTileUsed 1 2 cellsArrowOnly 1 = true ∧
    deriveArrows 1 2 cellsArrowOnly = [⟨0, 1, .right⟩] ∧
    getUsedBounds 1 2 cellsArrowOnly = ⟨0, 0, 0, 0⟩ ∧
    autoTrim 1 2 cellsArrowOnly = (1, 1, [{ right := true }]) := by
  refine ⟨by decide, by decide, by decide, by decide⟩

/-- C7 (counterexample): in the legacy editor (`EditorView.svelte`), with
the separately entered id `"custom"` and date `"2025-01-02"`, the exported
puzzle's `id` is `"custom"`, not the date. -/
theorem buildPuzzleLegacy_id_not_date :
    (buildPuzzleLegacy metaCustomId 1 1 edCellsOne).id = js ("custom") ∧
    (buildPuzzleLegacy metaCustomId 1 1 edCellsOne).date = js ("2025-01-02") ∧
    (buildPuzzleLegacy metaCustomId 1 1 edCellsOne).id ≠
      (buildPuzzleLegacy metaCustomId 1 1 edCellsOne).date := by
  refine ⟨by decide, by decide, by decide⟩

/-- C7 (amended): the trim-capable editor's export always sets
`id := meta.date`; the legacy editor's export instead sets `id` to the
separately entered id when it is non-empty, falling back to the date only
when the entered id is empty. -/
theorem buildPuzzle_id_spec (meta : EditorMeta) (rows cols : Nat)
    (cells : List EditCell) :
    (buildPuzzle meta rows cols cells).id = meta.date ∧
    (buildPuzzle meta rows cols cells).date = meta.date ∧
    (buildPuzzleLegacy meta rows cols cells).id =
      (if meta.id.isEmpty then meta.date else meta.id) ∧
    (buildPuzzleLegacy meta rows cols cells).date = meta.date :=
  ⟨rfl, rfl, rfl, rfl⟩

/-- C8 (confirmed): the total score is the sum, over all used non-fixed
cells of the grid, of the per-cell score `time * submits` (`0` with no
completion record); on the spec's scenario (cell 1 at `time 12, submits 1`,
cell 2 at `time 30, submits 2` on the demo puzzle) the per-cell scores are
`12` and `60` and the total is `72`. -/
theorem score_spec :
    (∀ (p : Puzzle) (tc : Nat → Option Completion),
       getTotalScore p tc = specTotalScore p tc) ∧
    getTileScore tcDemo 1 = 12 ∧
    getTileScore tcDemo 2 = 60 ∧
    getTotalScore makeDemoPuzzle tcDemo = 72 := by
  refine ⟨?_, by decide, by decide, by decide⟩
  intro p tc
  unfold getTotalScore specTotalScore
  rw [List.foldl_ext (g := fun acc i => acc + perCellScore p tc i)]
  · rw [foldl_add_glist, Nat.zero_add]
  · intro b i _
    unfold perCellScore
    cases p.grid.cells[i]? with
    | none => simp
    | some cell =>
        dsimp only
        split
        · rfl
        · simp

end Waterfalls
